import Mathlib

/-!
Shallow embedding of `extract_quickapp.py` (QuickAppExtractor).

The program is a sequential orchestration of external `adb` subprocess
invocations plus a few local-filesystem side effects.  We embed it as
state-passing functions over an explicit state `St`:

* `St.fs`    — the set (as a list) of local directories that exist,
* `St.trace` — the argv of every `subprocess.run` invocation, in order,
* `St.logs`  — the `logging` calls (level, plus structured payload for the
               two final summary lines),
* `St.tick`  — how many times `datetime.now()` has been consulted.

The external world is an oracle `Env`:

* `Env.run`   — the behaviour of `subprocess.run` for a given argv: either a
                completed process (`ExecOutcome.ok`, carrying returncode,
                stdout, stderr) or a raised exception (`ExecOutcome.exn`);
* `Env.clock` — the string `datetime.now().strftime(&quot;%Y%m%d_%H%M%S&quot;)`
                returned by the n-th call;
* `Env.parse` — the behaviour of the external `json` library combined with
                `dict.get` on the manifest text (see `ManifestParse`);
* `Env.confirmInput` — what `input()` returns in `clear_cache`.

Local filesystem calls are modelled on `St.fs`: `os.makedirs` and
`os.path.exists` as pure updates and queries, and `os.rename` with its
failure mode — it raises when the destination name already exists as a
distinct path (see `osRename`), the raised `OSError` landing in the
caller's top-level `except`.  Python text helpers used by the source
(`str.splitlines`, `str.strip`, `str.split`, `str.lower`) are modelled
below (`splitlines`, `pystrip`, `pysplit`, `pylower`), with `\n` as the
line separator.
-/

/-- Outcome of one `subprocess.run` call: the completed process, as the
Python code observes it (`returncode`, `stdout`, `stderr`). -/
structure CmdResult where
  returncode : Int
  stdout : String
  stderr : String
deriving DecidableEq, Repr

/-- A `subprocess.run` invocation either returns a `CmdResult` or raises. -/
inductive ExecOutcome where
  | ok (r : CmdResult)
  | exn
deriving DecidableEq, Repr

/-- Logging levels used by the script. -/
inductive Level where
  | info
  | warning
  | error
deriving DecidableEq, Repr

/-- A log line.  Most lines are only tracked by level; the two final
summary lines (`提取完成: 成功 N/M` of `extract_all` and
`清除完成: 成功 N/M` of `clear_cache`) carry their counts so that the
reported numbers can be reasoned about. -/
inductive LogEntry where
  | msg (lvl : Level)
  | extractDone (succ total : Nat)
  | clearDone (succ total : Nat)
deriving DecidableEq, Repr

/-- Program state: local directories, subprocess trace, log stream, and the
number of `datetime.now()` calls made so far. -/
structure St where
  fs : List String
  trace : List (List String)
  logs : List LogEntry
  tick : Nat
deriving DecidableEq, Repr

/-- The initial state: nothing created, nothing run, nothing logged. -/
def st0 : St := ⟨[], [], [], 0⟩

/-- Outcome of `json.loads(result.stdout)` followed by
`manifest_data.get('name', app_name)`, as the code distinguishes them:

* `invalid` — `json.loads` raises (stdout is not valid JSON);
* `notDict` — valid JSON but not an object, so `.get` raises
  `AttributeError`;
* `objWithoutName` — a JSON object with no `name` key, so `.get` returns
  its default;
* `objWithName v` — a JSON object whose `name` value is `v` (as the string
  the program subsequently interpolates into the directory name). -/
inductive ManifestParse where
  | invalid
  | notDict
  | objWithoutName
  | objWithName (v : String)
deriving DecidableEq, Repr

/-- The external world: subprocess behaviour, wall clock, JSON library
behaviour on manifest text, and the interactive confirmation line. -/
structure Env where
  run : List String → ExecOutcome
  clock : Nat → String
  parse : String → ManifestParse
  confirmInput : String

/-- `self.source_dir` of `QuickAppExtractor.__init__`. -/
def sourceDir : String := "/data/data/com.miui.hybrid/app_resource"

/-- `self.output_dir` of `QuickAppExtractor.__init__`. -/
def outputDir : String := "extracted_quickapps"

/-- `os.path.join` for the two-component joins the script performs. -/
def pathJoin (a b : String) : String := a ++ "/" ++ b

/-- The f-string `f'\x7bstem\x7d_\x7btimestamp\x7d'` used for both the staging
directory name and the renamed output directory name. -/
def dirName (stem ts : String) : String := stem ++ "_" ++ ts

/-- Argv of a privileged remote command `adb shell su -c <c>`. -/
def suCmd (c : String) : List String := ["adb", "shell", "su -c", c]

/-- Argv of `adb devices`. -/
def devicesCmd : List String := ["adb", "devices"]

/-- Argv of the remote listing `ls <source_dir>` in `list_quickapps`. -/
def lsCmd : List String := suCmd ("ls " ++ sourceDir)

/-- The remote path `f'\x7bself.source_dir\x7d/\x7bapp_name\x7d'`. -/
def sourcePath (app : String) : String := sourceDir ++ "/" ++ app

/-- The remote staging path `f'/sdcard/quickapp_temp/\x7bapp_name\x7d'`. -/
def tempPath (app : String) : String := "/sdcard/quickapp_temp/" ++ app

/-- Argv of the best-effort staging-parent creation in `extract_quickapp`. -/
def mkdirTempCmd : List String := suCmd "mkdir -p /sdcard/quickapp_temp"

/-- Argv of the staging copy `cp -r <source> <temp>` in `extract_quickapp`. -/
def copyCmd (app : String) : List String :=
  suCmd ("cp -r " ++ sourcePath app ++ " " ++ tempPath app)

/-- Argv of `chmod -R 777 <temp>` in `extract_quickapp`. -/
def chmodCmd (app : String) : List String :=
  suCmd ("chmod -R 777 " ++ tempPath app)

/-- Argv of `adb pull <temp> <local staging dir>` in `extract_quickapp`. -/
def pullCmd (app ts : String) : List String :=
  ["adb", "pull", tempPath app, pathJoin outputDir (dirName app ts)]

/-- Argv of the unconditional staging cleanup `rm -rf <temp>` in
`extract_quickapp`. -/
def rmTempCmd (app : String) : List String :=
  suCmd ("rm -rf " ++ tempPath app)

/-- Argv of the manifest read `cat <source>/<app>/manifest.json` in
`get_app_name_from_manifest`. -/
def catManifestCmd (app : String) : List String :=
  suCmd ("cat " ++ sourceDir ++ "/" ++ app ++ "/manifest.json")

/-- Argv of the cache deletion `rm -rf <source_dir>/<app>` in `clear_cache`. -/
def clearRmCmd (app : String) : List String :=
  suCmd ("rm -rf " ++ sourceDir ++ "/" ++ app)

/-- One `subprocess.run(argv, capture_output=True, ...)` call: the attempt
is recorded in the trace, and the oracle decides its outcome. -/
def runCmd (env : Env) (argv : List String) (s : St) : ExecOutcome × St :=
  (env.run argv, { s with trace := s.trace ++ [argv] })

/-- Append an info-level log line. -/
def logI (s : St) : St := { s with logs := s.logs ++ [LogEntry.msg Level.info] }

/-- Append a warning-level log line. -/
def logW (s : St) : St := { s with logs := s.logs ++ [LogEntry.msg Level.warning] }

/-- Append an error-level log line. -/
def logE (s : St) : St := { s with logs := s.logs ++ [LogEntry.msg Level.error] }

/-- Helper for `splitlines`: split the remaining characters at `\n`,
`acc` holding the current line reversed. -/
def splitlinesAux : List Char → List Char → List String
  | [], [] => []
  | [], acc => [⟨acc.reverse⟩]
  | '\n' :: rest, acc => ⟨acc.reverse⟩ :: splitlinesAux rest []
  | c :: rest, acc => splitlinesAux rest (c :: acc)

/-- Python `str.splitlines()` with `\n` as the separator: no empty final
component for a trailing newline, and `[]` for the empty string. -/
def splitlines (s : String) : List String := splitlinesAux s.data []

/-- Python `str.strip()` on the character list: drop whitespace from the
front, then from the back. -/
def stripChars (l : List Char) : List Char :=
  (((l.dropWhile Char.isWhitespace).reverse.dropWhile Char.isWhitespace)).reverse

/-- Python `str.strip()` (whitespace on both ends removed). -/
def pystrip (s : String) : String := ⟨stripChars s.data⟩

/-- Helper for `pysplit`: split the remaining characters at whitespace,
discarding empty pieces, `acc` holding the current word reversed. -/
def pysplitAux : List Char → List Char → List String
  | [], [] => []
  | [], acc => [⟨acc.reverse⟩]
  | c :: rest, acc =>
    if c.isWhitespace then
      if acc = [] then pysplitAux rest []
      else ⟨acc.reverse⟩ :: pysplitAux rest []
    else pysplitAux rest (c :: acc)

/-- Python `str.split()` with no argument: split on whitespace runs,
discarding empty pieces. -/
def pysplit (s : String) : List String := pysplitAux s.data []

/-- Python `str.lower()` (ASCII case folding suffices for the `y`
comparison the script makes). -/
def pylower (s : String) : String := ⟨s.data.map Char.toLower⟩

/-- The device-id extraction of `check_adb_device`:
`[line.split()[0] for line in result.stdout.splitlines()[1:] if line.strip()]`.
(The indexing `[0]` cannot raise because the line has a non-blank
character; `headD` supplies an unreachable default.) -/
def parseDevices (out : String) : List String :=
  (((splitlines out).drop 1).filter (fun line => pystrip line ≠ "")).map
    (fun line => (pysplit line).headD "")

/-- `QuickAppExtractor.ensure_output_dir`: create `output_dir` (with an
info log) when it does not exist. -/
def ensure_output_dir (s : St) : St :=
  if outputDir ∈ s.fs then s
  else { s with fs := s.fs ++ [outputDir], logs := s.logs ++ [LogEntry.msg Level.info] }

/-- `os.makedirs(d, exist_ok=True)`. -/
def makedirsExistOk (d : String) (s : St) : St :=
  if d ∈ s.fs then s else { s with fs := s.fs ++ [d] }

/-- `os.rename(old, new)` on the tracked directory list.  The real call
raises `OSError` when the destination already exists and is a distinct
path: always on Windows, and on POSIX when the destination directory is
non-empty — which is the reachable collision in this program, since an
existing `<displayName>_<timestamp>` destination was filled by the
successful `adb pull` that preceded its own rename.  `none` models the
raised exception (caught by the caller's top-level `except`); renaming a
path onto itself succeeds as a no-op. -/
def osRename (old new : String) (s : St) : Option St :=
  if new ∈ s.fs ∧ new ≠ old then none
  else some { s with fs := s.fs.map (fun d => if d = old then new else d) }

/-- `QuickAppExtractor.check_adb_device`: run `adb devices`, parse device
ids from all but the first line, fail on zero devices, warn on more than
one; any exception is caught, logged and turned into `false`. -/
def check_adb_device (env : Env) (s : St) : Bool × St :=
  match runCmd env devicesCmd s with
  | (ExecOutcome.exn, s) => (false, logE s)
  | (ExecOutcome.ok result, s) =>
    let devices := parseDevices result.stdout
    if devices = [] then (false, logE s)
    else if devices.length > 1 then (true, logI (logW s))
    else (true, logI s)

/-- `QuickAppExtractor.list_quickapps`: run `ls` on the resource root; a
non-zero exit or an exception yields `[]` with an error log; otherwise the
stripped non-blank lines of stdout, with an info log. -/
def list_quickapps (env : Env) (s : St) : List String × St :=
  match runCmd env lsCmd s with
  | (ExecOutcome.exn, s) => ([], logE s)
  | (ExecOutcome.ok result, s) =>
    if result.returncode ≠ 0 then ([], logE s)
    else
      let apps := ((splitlines result.stdout).filter
        (fun app => pystrip app ≠ "")).map pystrip
      (apps, logI s)

/-- `QuickAppExtractor.get_app_name_from_manifest`: `cat` the manifest on
the device; on non-zero exit return the identifier; otherwise parse the
stdout as JSON and return its `name` value, the identifier when the key is
absent, and the identifier (with a warning) when parsing or `.get` raises.
A subprocess exception is likewise caught and degrades to the identifier. -/
def get_app_name_from_manifest (env : Env) (app_name : String) (s : St) :
    String × St :=
  match runCmd env (catManifestCmd app_name) s with
  | (ExecOutcome.exn, s) => (app_name, logW s)
  | (ExecOutcome.ok result, s) =>
    if result.returncode ≠ 0 then (app_name, s)
    else
      match env.parse result.stdout with
      | ManifestParse.invalid => (app_name, logW s)
      | ManifestParse.notDict => (app_name, logW s)
      | ManifestParse.objWithoutName => (app_name, s)
      | ManifestParse.objWithName v => (v, s)

/-- `QuickAppExtractor.extract_quickapp`: ensure the output root, create
the timestamped staging directory, best-effort remote `mkdir -p`, then
`cp -r` (abort on failure), `chmod -R 777` (abort on failure), `adb pull`,
unconditional remote cleanup, and on pull success rename the staging
directory to the display name.  Every exception is caught at the top and
becomes a `false` return. -/
def extract_quickapp (env : Env) (app_name : String) (s0 : St) : Bool × St :=
  let s := ensure_output_dir s0
  let timestamp := env.clock s.tick
  let s := { s with tick := s.tick + 1 }
  let temp_output_dir := pathJoin outputDir (dirName app_name timestamp)
  let s := makedirsExistOk temp_output_dir s
  match runCmd env mkdirTempCmd s with
  | (ExecOutcome.exn, s) => (false, logE s)
  | (ExecOutcome.ok _, s) =>
  match runCmd env (copyCmd app_name) s with
  | (ExecOutcome.exn, s) => (false, logE s)
  | (ExecOutcome.ok copy_result, s) =>
  if copy_result.returncode ≠ 0 then (false, logE s)
  else
  match runCmd env (chmodCmd app_name) s with
  | (ExecOutcome.exn, s) => (false, logE s)
  | (ExecOutcome.ok chmod_result, s) =>
  if chmod_result.returncode ≠ 0 then (false, logE s)
  else
  match runCmd env (pullCmd app_name timestamp) s with
  | (ExecOutcome.exn, s) => (false, logE s)
  | (ExecOutcome.ok result, s) =>
  match runCmd env (rmTempCmd app_name) s with
  | (ExecOutcome.exn, s) => (false, logE s)
  | (ExecOutcome.ok _, s) =>
  if result.returncode = 0 then
    let (app_display_name, s) := get_app_name_from_manifest env app_name s
    let app_output_dir := pathJoin outputDir (dirName app_display_name timestamp)
    match osRename temp_output_dir app_output_dir s with
    | none => (false, logE s)
    | some s => (true, logI s)
  else (false, logE s)

/-- The `for app in apps` loop of `extract_all`, returning the success
tally. -/
def extract_loop (env : Env) : List String → St → Nat × St
  | [], s => (0, s)
  | app :: rest, s =>
    let (ok, s) := extract_quickapp env app s
    let (n, s') := extract_loop env rest s
    ((if ok then 1 else 0) + n, s')

/-- The same loop, but recording each item's boolean outcome. -/
def extract_results (env : Env) : List String → St → List Bool × St
  | [], s => ([], s)
  | app :: rest, s =>
    let (ok, s) := extract_quickapp env app s
    let (bs, s') := extract_results env rest s
    (ok :: bs, s')

/-- `QuickAppExtractor.extract_all`: device check, enumeration, per-item
extraction, and the final `成功 N/M` summary log. -/
def extract_all (env : Env) (s : St) : St :=
  match check_adb_device env s with
  | (false, s) => s
  | (true, s) =>
    let (apps, s) := list_quickapps env s
    if apps = [] then s
    else
      let s := ensure_output_dir s
      let (n, s) := extract_loop env apps s
      { s with logs := s.logs ++ [LogEntry.extractDone n apps.length] }

/-- The display-name resolution loop of `list_packages` (output is printed,
so only the state effects are tracked). -/
def list_packages_loop (env : Env) : List String → St → St
  | [], s => s
  | app :: rest, s =>
    list_packages_loop env rest (get_app_name_from_manifest env app s).2

/-- `QuickAppExtractor.list_packages`: enumerate, then resolve each display
name; purely informational. -/
def list_packages (env : Env) (s : St) : St :=
  let (apps, s) := list_quickapps env s
  if apps = [] then s else list_packages_loop env apps s

/-- The deletion loop of `clear_cache`: one privileged `rm -rf` per app,
tallying zero exits; exceptions are caught per item. -/
def clear_loop (env : Env) : List String → St → Nat × St
  | [], s => (0, s)
  | app :: rest, s =>
    match runCmd env (clearRmCmd app) s with
    | (ExecOutcome.exn, s) => clear_loop env rest (logE s)
    | (ExecOutcome.ok result, s) =>
      if result.returncode = 0 then
        let (n, s') := clear_loop env rest (logI s)
        (n + 1, s')
      else clear_loop env rest (logE s)

/-- `QuickAppExtractor.clear_cache`: device check, enumeration, interactive
confirmation (`input()` compared case-insensitively with `y`), then the
deletion loop and a `成功 N/M` summary log; on any other input nothing is
deleted. -/
def clear_cache (env : Env) (s : St) : St :=
  match check_adb_device env s with
  | (false, s) => s
  | (true, s) =>
    let (apps, s) := list_quickapps env s
    if apps = [] then s
    else if pylower env.confirmInput ≠ "y" then s
    else
      let (n, s) := clear_loop env apps s
      { s with logs := s.logs ++ [LogEntry.clearDone n apps.length] }

/-- The dispatch of `main` on `sys.argv[1:]`: `extract` with an identifier
calls `extract_quickapp`, bare `extract` calls `extract_all`, `list` and
`clear` call their operations, and `help`/unknown/no arguments only
print. -/
def mainRun (env : Env) (args : List String) (s : St) : St :=
  match args with
  | [] => s
  | cmd :: rest =>
    if cmd = "extract" then
      match rest with
      | id :: _ => (extract_quickapp env id s).2
      | [] => extract_all env s
    else if cmd = "list" then list_packages env s
    else if cmd = "clear" then clear_cache env s
    else s

/-- Boolean success of one `clear_cache` deletion under the oracle: the
`rm -rf` for this app completed with exit code 0. -/
def clearOk (env : Env) (app : String) : Bool :=
  match env.run (clearRmCmd app) with
  | ExecOutcome.ok r => r.returncode == 0
  | ExecOutcome.exn => false

/-- Oracle in which the staging copy of `com.a` exits with code 1 and every
other command succeeds. -/
def envCopyFail : Env where
  run := fun argv =>
    if argv = copyCmd "com.a" then ExecOutcome.ok ⟨1, "", "copy failed"⟩
    else ExecOutcome.ok ⟨0, "", ""⟩
  clock := fun _ => "20240101_120000"
  parse := fun _ => ManifestParse.objWithoutName
  confirmInput := ""

/-- Oracle in which the pull of `com.a` exits with code 1 and every other
command succeeds. -/
def envPullFail : Env where
  run := fun argv =>
    if argv = pullCmd "com.a" "20240101_120000" then ExecOutcome.ok ⟨1, "", "pull failed"⟩
    else ExecOutcome.ok ⟨0, "", ""⟩
  clock := fun _ => "20240101_120000"
  parse := fun _ => ManifestParse.objWithoutName
  confirmInput := ""

/-- Oracle in which the manifest read of `com.a` exits with code 1. -/
def envCatFail : Env where
  run := fun argv =>
    if argv = catManifestCmd "com.a" then ExecOutcome.ok ⟨1, "", "no such file"⟩
    else ExecOutcome.ok ⟨0, "", ""⟩
  clock := fun _ => "20240101_120000"
  parse := fun _ => ManifestParse.objWithoutName
  confirmInput := ""

/-- Oracle with one device and two listed apps `a` and `b`, where the
staging copy of `b` fails; confirmation input is `n`. -/
def envTwoApps : Env where
  run := fun argv =>
    if argv = devicesCmd then ExecOutcome.ok ⟨0, "List of devices attached\nd1\tdevice\n", ""⟩
    else if argv = lsCmd then ExecOutcome.ok ⟨0, "a\nb\n", ""⟩
    else if argv = copyCmd "b" then ExecOutcome.ok ⟨1, "", "copy failed"⟩
    else ExecOutcome.ok ⟨0, "", ""⟩
  clock := fun _ => "20240101_120000"
  parse := fun _ => ManifestParse.objWithoutName
  confirmInput := "n"

/-- The state after the device check of `envTwoApps` from `st0`. -/
def stAfterCheck : St := (check_adb_device envTwoApps st0).2

/-- The state after the enumeration of `envTwoApps` from `stAfterCheck`. -/
def stAfterList : St := (list_quickapps envTwoApps stAfterCheck).2

/-- Oracle in which every command succeeds, the clock is frozen inside one
second, and every manifest resolves to the display name `Weather`. -/
def envDup : Env where
  run := fun _ => ExecOutcome.ok ⟨0, "", ""⟩
  clock := fun _ => "20240101_120000"
  parse := fun _ => ManifestParse.objWithName "Weather"
  confirmInput := ""

/-- Oracle with one device and two devices lines for the multi-device
warning path of `check_adb_device`. -/
def envTwoDevices : Env where
  run := fun argv =>
    if argv = devicesCmd then
      ExecOutcome.ok ⟨0, "List of devices attached\nd1\tdevice\nd2\tdevice\n", ""⟩
    else ExecOutcome.ok ⟨0, "", ""⟩
  clock := fun _ => "20240101_120000"
  parse := fun _ => ManifestParse.objWithoutName
  confirmInput := ""

/-- Oracle whose remote listing has padded and blank lines. -/
def envPaddedLs : Env where
  run := fun argv =>
    if argv = lsCmd then ExecOutcome.ok ⟨0, " a \n\nb\n", ""⟩
    else ExecOutcome.ok ⟨0, "", ""⟩
  clock := fun _ => "20240101_120000"
  parse := fun _ => ManifestParse.objWithoutName
  confirmInput := ""

/-! Small facts about the state operations: none of the logging or
filesystem helpers touches the subprocess trace or the clock counter, and
`runCmd` appends exactly its argv. -/

@[simp] theorem ensure_trace (s : St) : (ensure_output_dir s).trace = s.trace := by
  unfold ensure_output_dir; split <;> rfl

@[simp] theorem ensure_tick (s : St) : (ensure_output_dir s).tick = s.tick := by
  unfold ensure_output_dir; split <;> rfl

theorem ensure_fs (s : St) :
    (ensure_output_dir s).fs = if outputDir ∈ s.fs then s.fs else s.fs ++ [outputDir] := by
  unfold ensure_output_dir; split <;> simp [*]

@[simp] theorem makedirs_trace (d : String) (s : St) :
    (makedirsExistOk d s).trace = s.trace := by
  unfold makedirsExistOk; split <;> rfl

@[simp] theorem makedirs_tick (d : String) (s : St) :
    (makedirsExistOk d s).tick = s.tick := by
  unfold makedirsExistOk; split <;> rfl

@[simp] theorem makedirs_logs (d : String) (s : St) :
    (makedirsExistOk d s).logs = s.logs := by
  unfold makedirsExistOk; split <;> rfl

theorem makedirs_fs (d : String) (s : St) :
    (makedirsExistOk d s).fs = if d ∈ s.fs then s.fs else s.fs ++ [d] := by
  unfold makedirsExistOk; split <;> simp [*]

@[simp] theorem mem_makedirs_fs (d : String) (s : St) : d ∈ (makedirsExistOk d s).fs := by
  rw [makedirs_fs]; split <;> simp [*]

@[simp] theorem logE_trace (s : St) : (logE s).trace = s.trace := rfl
@[simp] theorem logE_fs (s : St) : (logE s).fs = s.fs := rfl
@[simp] theorem logE_tick (s : St) : (logE s).tick = s.tick := rfl
@[simp] theorem logE_logs (s : St) : (logE s).logs = s.logs ++ [LogEntry.msg Level.error] := rfl
@[simp] theorem logW_trace (s : St) : (logW s).trace = s.trace := rfl
@[simp] theorem logW_fs (s : St) : (logW s).fs = s.fs := rfl
@[simp] theorem logW_tick (s : St) : (logW s).tick = s.tick := rfl
@[simp] theorem logW_logs (s : St) : (logW s).logs = s.logs ++ [LogEntry.msg Level.warning] := rfl
@[simp] theorem logI_trace (s : St) : (logI s).trace = s.trace := rfl
@[simp] theorem logI_fs (s : St) : (logI s).fs = s.fs := rfl
@[simp] theorem logI_tick (s : St) : (logI s).tick = s.tick := rfl
@[simp] theorem logI_logs (s : St) : (logI s).logs = s.logs ++ [LogEntry.msg Level.info] := rfl
theorem osRename_some_fields {old new : String} {s s2 : St}
    (h : osRename old new s = some s2) :
    s2.trace = s.trace ∧ s2.logs = s.logs ∧ s2.tick = s.tick ∧
      s2.fs = s.fs.map (fun d => if d = old then new else d) := by
  unfold osRename at h
  split at h
  · cases h
  · cases h
    exact ⟨rfl, rfl, rfl, rfl⟩

/-! String facts used to separate the distinct command argvs the script
issues, and idempotence of the Python-style strip. -/

theorem head_of_str_append {p : String} (x : String) {c : Char}
    (hp : p.data.head? = some c) : (p ++ x).data.head? = some c := by
  rw [String.data_append]
  rw [List.head?_append_of_ne_nil]
  · exact hp
  · intro h
    rw [h] at hp
    cases hp

theorem ne_of_first_char {s t : String} {c d : Char}
    (hs : s.data.head? = some c) (ht : t.data.head? = some d) (hcd : c ≠ d) :
    s ≠ t := by
  intro e
  rw [e, ht] at hs
  exact hcd (Option.some.inj hs).symm

theorem dropWhile_head_not {α : Type} (p : α → Bool) (l : List α) (a : α)
    (t : List α) (h : l.dropWhile p = a :: t) : p a = false := by
  have hh := List.head?_dropWhile_not p l
  rw [h] at hh
  simpa using hh

theorem dropWhile_dropWhile_self {α : Type} (p : α → Bool) (l : List α) :
    (l.dropWhile p).dropWhile p = l.dropWhile p := by
  cases h : l.dropWhile p with
  | nil => simp
  | cons a t =>
    have ha := dropWhile_head_not p l a t h
    simp [List.dropWhile_cons, ha]

theorem stripChars_front (l : List Char) :
    (stripChars l).dropWhile Char.isWhitespace = stripChars l := by
  unfold stripChars
  cases h : l.dropWhile Char.isWhitespace with
  | nil => simp
  | cons a t =>
    have ha := dropWhile_head_not Char.isWhitespace l a t h
    rw [List.reverse_cons, List.dropWhile_append]
    by_cases he : (t.reverse.dropWhile Char.isWhitespace).isEmpty
    · simp [he, List.dropWhile_cons, ha]
    · simp [he, List.dropWhile_cons, ha]

theorem stripChars_idem (l : List Char) :
    stripChars (stripChars l) = stripChars l := by
  conv_lhs => rw [stripChars]
  rw [stripChars_front l]
  conv_lhs => rw [stripChars]
  rw [List.reverse_reverse, dropWhile_dropWhile_self]
  rfl

theorem pystrip_idem (s : String) : pystrip (pystrip s) = pystrip s := by
  unfold pystrip
  exact congrArg String.mk (stripChars_idem s.data)

theorem suCmd_getLast (a : String) : (suCmd a).getLast? = some a := rfl

theorem suCmd_ne_of_arg_ne {a b : String} (h : a ≠ b) : suCmd a ≠ suCmd b := by
  intro e
  have h1 : (suCmd a).getLast? = some a := rfl
  rw [e, suCmd_getLast b] at h1
  exact h (Option.some.inj h1).symm

theorem copy_str_head (a : String) :
    ("cp -r " ++ sourcePath a ++ " " ++ tempPath a).data.head? = some 'c' :=
  head_of_str_append _ (head_of_str_append _ (head_of_str_append _ rfl))

theorem chmod_str_head (a : String) :
    ("chmod -R 777 " ++ tempPath a).data.head? = some 'c' :=
  head_of_str_append _ rfl

theorem rm_str_head (a : String) :
    ("rm -rf " ++ tempPath a).data.head? = some 'r' :=
  head_of_str_append _ rfl

theorem clear_rm_str_head (a : String) :
    ("rm -rf " ++ sourceDir ++ "/" ++ a).data.head? = some 'r' :=
  head_of_str_append _ (head_of_str_append _ (head_of_str_append _ rfl))

theorem cat_str_head (a : String) :
    ("cat " ++ sourceDir ++ "/" ++ a ++ "/manifest.json").data.head? = some 'c' :=
  head_of_str_append _ (head_of_str_append _ (head_of_str_append _ (head_of_str_append _ rfl)))

theorem ls_str_head : ("ls " ++ sourceDir).data.head? = some 'l' := rfl

theorem rm_ne_mkdirCmd (a : String) : rmTempCmd a ≠ mkdirTempCmd :=
  suCmd_ne_of_arg_ne (ne_of_first_char (rm_str_head a) rfl (by decide))

theorem rm_ne_copyCmd (a b : String) : rmTempCmd a ≠ copyCmd b :=
  suCmd_ne_of_arg_ne (ne_of_first_char (rm_str_head a) (copy_str_head b) (by decide))

theorem rm_ne_chmodCmd (a b : String) : rmTempCmd a ≠ chmodCmd b :=
  suCmd_ne_of_arg_ne (ne_of_first_char (rm_str_head a) (chmod_str_head b) (by decide))

theorem rm_ne_pullCmd (a b ts : String) : rmTempCmd a ≠ pullCmd b ts := by
  intro e
  have h1 : (rmTempCmd a).get? 1 = some "shell" := rfl
  rw [e] at h1
  have h2 : (pullCmd b ts).get? 1 = some "pull" := rfl
  rw [h2] at h1
  exact absurd (Option.some.inj h1) (by decide)

theorem mkdir_ne_devices : mkdirTempCmd ≠ devicesCmd := by decide
theorem copy_ne_devices (a : String) : copyCmd a ≠ devicesCmd := by simp [copyCmd, suCmd, devicesCmd]
theorem chmod_ne_devices (a : String) : chmodCmd a ≠ devicesCmd := by simp [chmodCmd, suCmd, devicesCmd]
theorem rm_ne_devices (a : String) : rmTempCmd a ≠ devicesCmd := by simp [rmTempCmd, suCmd, devicesCmd]
theorem cat_ne_devices (a : String) : catManifestCmd a ≠ devicesCmd := by
  simp [catManifestCmd, suCmd, devicesCmd]
theorem pull_ne_devices (a ts : String) : pullCmd a ts ≠ devicesCmd := by
  simp [pullCmd, devicesCmd]
theorem clearRm_ne_devices (a : String) : clearRmCmd a ≠ devicesCmd := by
  simp [clearRmCmd, suCmd, devicesCmd]

theorem mkdir_ne_ls : mkdirTempCmd ≠ lsCmd := by decide
theorem copy_ne_ls (a : String) : copyCmd a ≠ lsCmd :=
  suCmd_ne_of_arg_ne (ne_of_first_char (copy_str_head a) ls_str_head (by decide))
theorem chmod_ne_ls (a : String) : chmodCmd a ≠ lsCmd :=
  suCmd_ne_of_arg_ne (ne_of_first_char (chmod_str_head a) ls_str_head (by decide))
theorem rm_ne_ls (a : String) : rmTempCmd a ≠ lsCmd :=
  suCmd_ne_of_arg_ne (ne_of_first_char (rm_str_head a) ls_str_head (by decide))
theorem cat_ne_ls (a : String) : catManifestCmd a ≠ lsCmd :=
  suCmd_ne_of_arg_ne (ne_of_first_char (cat_str_head a) ls_str_head (by decide))
theorem pull_ne_ls (a ts : String) : pullCmd a ts ≠ lsCmd := by
  intro e
  have h1 : (pullCmd a ts).get? 1 = some "pull" := rfl
  rw [e] at h1
  have h2 : lsCmd.get? 1 = some "shell" := rfl
  rw [h2] at h1
  exact absurd (Option.some.inj h1) (by decide)
theorem clearRm_ne_ls (a : String) : clearRmCmd a ≠ lsCmd :=
  suCmd_ne_of_arg_ne (ne_of_first_char (clear_rm_str_head a) ls_str_head (by decide))

/-! Trace shapes of the individual operations. -/

theorem check_adb_device_trace (env : Env) (s : St) :
    (check_adb_device env s).2.trace = s.trace ++ [devicesCmd] := by
  unfold check_adb_device runCmd
  cases env.run devicesCmd with
  | ok r =>
    by_cases h : parseDevices r.stdout = [] <;>
      by_cases h2 : (parseDevices r.stdout).length > 1 <;> simp [h, h2]
  | exn => simp

theorem list_quickapps_trace (env : Env) (s : St) :
    (list_quickapps env s).2.trace = s.trace ++ [lsCmd] := by
  unfold list_quickapps runCmd
  cases env.run lsCmd with
  | ok r => by_cases h : r.returncode = 0 <;> simp [h]
  | exn => simp

theorem get_app_name_trace (env : Env) (a : String) (s : St) :
    (get_app_name_from_manifest env a s).2.trace = s.trace ++ [catManifestCmd a] := by
  unfold get_app_name_from_manifest runCmd
  cases env.run (catManifestCmd a) with
  | ok r =>
    by_cases h : r.returncode = 0 <;> cases hp : env.parse r.stdout <;> simp [h, hp]
  | exn => simp

theorem get_app_name_fs (env : Env) (a : String) (s : St) :
    (get_app_name_from_manifest env a s).2.fs = s.fs := by
  unfold get_app_name_from_manifest runCmd
  cases env.run (catManifestCmd a) with
  | ok r =>
    by_cases h : r.returncode = 0 <;> cases hp : env.parse r.stdout <;> simp [h, hp]
  | exn => simp

theorem extract_quickapp_fail_fs (env : Env) (app : String) (s : St)
    (h : (extract_quickapp env app s).1 = false) :
    (extract_quickapp env app s).2.fs =
      (makedirsExistOk (pathJoin outputDir (dirName app (env.clock s.tick)))
        (ensure_output_dir s)).fs := by
  unfold extract_quickapp runCmd at h ⊢
  simp only [ensure_tick] at h ⊢
  cases hm : env.run mkdirTempCmd with
  | exn => simp [hm, makedirs_fs]
  | ok r0 =>
    cases hc : env.run (copyCmd app) with
    | exn => simp [hm, hc, makedirs_fs]
    | ok rc =>
      by_cases hrc : rc.returncode = 0
      · cases hh : env.run (chmodCmd app) with
        | exn => simp [hm, hc, hrc, hh, makedirs_fs]
        | ok rh =>
          by_cases hrh : rh.returncode = 0
          · cases hp : env.run (pullCmd app (env.clock s.tick)) with
            | exn => simp [hm, hc, hrc, hh, hrh, hp, makedirs_fs]
            | ok rp =>
              cases hr : env.run (rmTempCmd app) with
              | exn => simp [hm, hc, hrc, hh, hrh, hp, hr, makedirs_fs]
              | ok rr =>
                by_cases hrp : rp.returncode = 0
                · simp only [hm, hc, hrc, hh, hrh, hp, hr, hrp] at h ⊢
                  simp at h ⊢
                  split at h
                  · rename_i heq
                    simp [heq, get_app_name_fs, makedirs_fs]
                  · simp at h
                · simp [hm, hc, hrc, hh, hrh, hp, hr, hrp, makedirs_fs]
          · simp [hm, hc, hrc, hh, hrh, makedirs_fs]
      · simp [hm, hc, hrc, makedirs_fs]

theorem extract_quickapp_trace_shape (env : Env) (app : String) (s : St) :
    ∃ t, (extract_quickapp env app s).2.trace = s.trace ++ t ∧
      ∀ c ∈ t, c = mkdirTempCmd ∨ c = copyCmd app ∨ c = chmodCmd app ∨
        c = pullCmd app (env.clock s.tick) ∨ c = rmTempCmd app ∨
        c = catManifestCmd app := by
  unfold extract_quickapp runCmd
  simp only [ensure_tick]
  cases hm : env.run mkdirTempCmd with
  | exn =>
    refine ⟨[mkdirTempCmd], by simp [hm], ?_⟩
    intro c hc
    simp at hc
    tauto
  | ok r0 =>
    cases hc : env.run (copyCmd app) with
    | exn =>
      refine ⟨[mkdirTempCmd, copyCmd app], by simp [hm, hc], ?_⟩
      intro c hc2
      simp at hc2
      tauto
    | ok rc =>
      by_cases hrc : rc.returncode = 0
      · cases hh : env.run (chmodCmd app) with
        | exn =>
          refine ⟨[mkdirTempCmd, copyCmd app, chmodCmd app], by simp [hm, hc, hrc, hh], ?_⟩
          intro c hc2
          simp at hc2
          tauto
        | ok rh =>
          by_cases hrh : rh.returncode = 0
          · cases hp : env.run (pullCmd app (env.clock s.tick)) with
            | exn =>
              refine ⟨[mkdirTempCmd, copyCmd app, chmodCmd app,
                pullCmd app (env.clock s.tick)], by simp [hm, hc, hrc, hh, hrh, hp], ?_⟩
              intro c hc2
              simp at hc2
              tauto
            | ok rp =>
              cases hr : env.run (rmTempCmd app) with
              | exn =>
                refine ⟨[mkdirTempCmd, copyCmd app, chmodCmd app,
                  pullCmd app (env.clock s.tick), rmTempCmd app],
                  by simp [hm, hc, hrc, hh, hrh, hp, hr], ?_⟩
                intro c hc2
                simp at hc2
                tauto
              | ok rr =>
                by_cases hrp : rp.returncode = 0
                · refine ⟨[mkdirTempCmd, copyCmd app, chmodCmd app,
                    pullCmd app (env.clock s.tick), rmTempCmd app, catManifestCmd app],
                    ?_, ?_⟩
                  · simp [hm, hc, hrc, hh, hrh, hp, hr, hrp]
                    split
                    · simp [get_app_name_trace]
                    · rename_i s6 heq
                      simp [(osRename_some_fields heq).1, get_app_name_trace]
                  · intro c hc2
                    simp at hc2
                    tauto
                · refine ⟨[mkdirTempCmd, copyCmd app, chmodCmd app,
                    pullCmd app (env.clock s.tick), rmTempCmd app],
                    by simp [hm, hc, hrc, hh, hrh, hp, hr, hrp], ?_⟩
                  intro c hc2
                  simp at hc2
                  tauto
          · refine ⟨[mkdirTempCmd, copyCmd app, chmodCmd app],
              by simp [hm, hc, hrc, hh, hrh], ?_⟩
            intro c hc2
            simp at hc2
            tauto
      · refine ⟨[mkdirTempCmd, copyCmd app], by simp [hm, hc, hrc], ?_⟩
        intro c hc2
        simp at hc2
        tauto

theorem extract_loop_eq_results (env : Env) (apps : List String) (s : St) :
    extract_loop env apps s =
      ((extract_results env apps s).1.count true, (extract_results env apps s).2) := by
  induction apps generalizing s with
  | nil => simp [extract_loop, extract_results]
  | cons a rest ih =>
    simp only [extract_loop, extract_results]
    rcases h : extract_quickapp env a s with ⟨ok, s1⟩
    rw [ih s1]
    cases ok <;> simp [List.count_cons, Nat.add_comm]

theorem extract_results_length (env : Env) (apps : List String) (s : St) :
    (extract_results env apps s).1.length = apps.length := by
  induction apps generalizing s with
  | nil => simp [extract_results]
  | cons a rest ih =>
    simp only [extract_results]
    rcases h : extract_quickapp env a s with ⟨ok, s1⟩
    simp [ih s1]

theorem extract_loop_trace_mono (env : Env) (apps : List String) (s : St) :
    ∃ t, (extract_loop env apps s).2.trace = s.trace ++ t := by
  induction apps generalizing s with
  | nil => exact ⟨[], by simp [extract_loop]⟩
  | cons a rest ih =>
    simp only [extract_loop]
    rcases h : extract_quickapp env a s with ⟨ok, s1⟩
    rcases ih s1 with ⟨t2, ht2⟩
    rcases extract_quickapp_trace_shape env a s with ⟨t1, ht1, _⟩
    rw [h] at ht1
    rcases h2 : extract_loop env rest s1 with ⟨n, s2⟩
    rw [h2] at ht2
    simp only at ht1 ht2
    exact ⟨t1 ++ t2, by simp [ht2, ht1]⟩

theorem clear_loop_trace (env : Env) (apps : List String) (s : St) :
    (clear_loop env apps s).2.trace = s.trace ++ apps.map clearRmCmd := by
  induction apps generalizing s with
  | nil => simp [clear_loop]
  | cons a rest ih =>
    simp only [clear_loop, runCmd]
    cases h : env.run (clearRmCmd a) with
    | exn => simp [h, ih, logE]
    | ok r =>
      by_cases h0 : r.returncode = 0
      · simp [h, h0, ih, logI]
      · simp [h, h0, ih, logE]

theorem clear_loop_count (env : Env) (apps : List String) (s : St) :
    (clear_loop env apps s).1 = apps.countP (fun a => clearOk env a) := by
  induction apps generalizing s with
  | nil => simp [clear_loop]
  | cons a rest ih =>
    simp only [clear_loop, runCmd, List.countP_cons]
    cases h : env.run (clearRmCmd a) with
    | exn => simp [clearOk, h, ih]
    | ok r =>
      by_cases h0 : r.returncode = 0
      · simp [clearOk, h, h0, ih]
      · simp [clearOk, h, h0, ih]

theorem packages_loop_trace (env : Env) (apps : List String) (s : St) :
    (list_packages_loop env apps s).trace = s.trace ++ apps.map catManifestCmd := by
  induction apps generalizing s with
  | nil => simp [list_packages_loop]
  | cons a rest ih =>
    simp only [list_packages_loop]
    rw [ih, get_app_name_trace]
    simp

/-! The claims. -/

/-- C1: for every identifier, if the staging copy (`cp -r` into the staging
path) exits non-zero, `extract_quickapp` returns `false` and creates no
renamed output directory: every directory of the final state was already
present, or is the output root, or is the staging directory
`<identifier>_<timestamp>` itself. -/
theorem extract_copy_fail_no_rename (env : Env) (app : String) (s : St)
    (r0 r : CmdResult)
    (hmk : env.run mkdirTempCmd = ExecOutcome.ok r0)
    (hcp : env.run (copyCmd app) = ExecOutcome.ok r)
    (hrc : r.returncode ≠ 0) :
    (extract_quickapp env app s).1 = false ∧
    ∀ d ∈ (extract_quickapp env app s).2.fs,
      d ∈ s.fs ∨ d = outputDir ∨
        d = pathJoin outputDir (dirName app (env.clock s.tick)) := by
  have hfalse : (extract_quickapp env app s).1 = false := by
    unfold extract_quickapp runCmd
    simp [hmk, hcp, hrc]
  refine ⟨hfalse, ?_⟩
  intro d hd
  rw [extract_quickapp_fail_fs env app s hfalse, makedirs_fs, ensure_fs] at hd
  split at hd <;> split at hd <;> (try simp at hd) <;> tauto

/-- Witness for C1: under `envCopyFail` the extraction of `com.a` fails and
the staging directory is accounted for by the allowed alternatives. -/
theorem extract_copy_fail_no_rename_witness :
    (extract_quickapp envCopyFail "com.a" st0).1 = false ∧
    ("extracted_quickapps/com.a_20240101_120000" ∈ st0.fs ∨
     "extracted_quickapps/com.a_20240101_120000" = outputDir ∨
     "extracted_quickapps/com.a_20240101_120000" =
       pathJoin outputDir (dirName "com.a" (envCopyFail.clock st0.tick))) :=
  ⟨(extract_copy_fail_no_rename envCopyFail "com.a" st0 ⟨0, "", ""⟩
      ⟨1, "", "copy failed"⟩ (by decide) (by decide) (by decide)).1,
   (extract_copy_fail_no_rename envCopyFail "com.a" st0 ⟨0, "", ""⟩
      ⟨1, "", "copy failed"⟩ (by decide) (by decide) (by decide)).2
     "extracted_quickapps/com.a_20240101_120000" (by decide)⟩

/-- C2: for every identifier, if the pull step exits non-zero (the earlier
steps having completed), `extract_quickapp` returns `false` and the remote
staging cleanup `rm -rf` has been attempted exactly once, whatever the
cleanup attempt itself does. -/
theorem extract_pull_fail_cleanup_once (env : Env) (app : String) (s : St)
    (r0 rc rh rp : CmdResult)
    (hmk : env.run mkdirTempCmd = ExecOutcome.ok r0)
    (hcp : env.run (copyCmd app) = ExecOutcome.ok rc) (hrc : rc.returncode = 0)
    (hch : env.run (chmodCmd app) = ExecOutcome.ok rh) (hrh : rh.returncode = 0)
    (hpl : env.run (pullCmd app (env.clock s.tick)) = ExecOutcome.ok rp)
    (hrp : rp.returncode ≠ 0) :
    (extract_quickapp env app s).1 = false ∧
    (extract_quickapp env app s).2.trace.count (rmTempCmd app) =
      s.trace.count (rmTempCmd app) + 1 := by
  unfold extract_quickapp runCmd
  simp only [ensure_tick]
  cases hr : env.run (rmTempCmd app) with
  | exn =>
    simp [hmk, hcp, hrc, hch, hrh, hpl, hrp, hr, List.count_append, List.count_cons,
      rm_ne_mkdirCmd app, rm_ne_copyCmd app app, rm_ne_chmodCmd app app,
      rm_ne_pullCmd app app (env.clock s.tick),
      Ne.symm (rm_ne_mkdirCmd app), Ne.symm (rm_ne_copyCmd app app),
      Ne.symm (rm_ne_chmodCmd app app),
      Ne.symm (rm_ne_pullCmd app app (env.clock s.tick))]
  | ok rr =>
    simp [hmk, hcp, hrc, hch, hrh, hpl, hrp, hr, List.count_append, List.count_cons,
      rm_ne_mkdirCmd app, rm_ne_copyCmd app app, rm_ne_chmodCmd app app,
      rm_ne_pullCmd app app (env.clock s.tick),
      Ne.symm (rm_ne_mkdirCmd app), Ne.symm (rm_ne_copyCmd app app),
      Ne.symm (rm_ne_chmodCmd app app),
      Ne.symm (rm_ne_pullCmd app app (env.clock s.tick))]

/-- Witness for C2: under `envPullFail` the extraction of `com.a` fails and
its trace holds exactly one staging cleanup. -/
theorem extract_pull_fail_cleanup_once_witness :
    (extract_quickapp envPullFail "com.a" st0).1 = false ∧
    (extract_quickapp envPullFail "com.a" st0).2.trace.count (rmTempCmd "com.a") =
      st0.trace.count (rmTempCmd "com.a") + 1 :=
  extract_pull_fail_cleanup_once envPullFail "com.a" st0 ⟨0, "", ""⟩ ⟨0, "", ""⟩
    ⟨0, "", ""⟩ ⟨1, "", "pull failed"⟩ (by decide) (by decide) (by decide)
    (by decide) (by decide) (by decide) (by decide)

/-- C3: `get_app_name_from_manifest` returns the raw identifier unchanged
when the remote read raises, exits non-zero, yields output that is not
valid JSON (or not a JSON object), or yields a JSON object without a
`name` field; being a total function of the model, it never raises to its
caller. -/
theorem get_app_name_degrades (env : Env) (app : String) (s : St) :
    (env.run (catManifestCmd app) = ExecOutcome.exn →
      (get_app_name_from_manifest env app s).1 = app) ∧
    ∀ r, env.run (catManifestCmd app) = ExecOutcome.ok r →
      ((r.returncode ≠ 0 → (get_app_name_from_manifest env app s).1 = app) ∧
       (env.parse r.stdout = ManifestParse.invalid →
          (get_app_name_from_manifest env app s).1 = app) ∧
       (env.parse r.stdout = ManifestParse.notDict →
          (get_app_name_from_manifest env app s).1 = app) ∧
       (env.parse r.stdout = ManifestParse.objWithoutName →
          (get_app_name_from_manifest env app s).1 = app)) := by
  constructor
  · intro h
    unfold get_app_name_from_manifest runCmd
    simp [h]
  · intro r hr
    refine ⟨fun h2 => ?_, fun h2 => ?_, fun h2 => ?_, fun h2 => ?_⟩
    · unfold get_app_name_from_manifest runCmd
      simp [hr, h2]
    · unfold get_app_name_from_manifest runCmd
      by_cases hrc0 : r.returncode = 0 <;> simp [hr, hrc0, h2]
    · unfold get_app_name_from_manifest runCmd
      by_cases hrc0 : r.returncode = 0 <;> simp [hr, hrc0, h2]
    · unfold get_app_name_from_manifest runCmd
      by_cases hrc0 : r.returncode = 0 <;> simp [hr, hrc0, h2]

/-- Witness for C3: under `envCatFail` the manifest read of `com.a` exits
non-zero and the raw identifier comes back. -/
theorem get_app_name_degrades_witness :
    (get_app_name_from_manifest envCatFail "com.a" st0).1 = "com.a" :=
  ((get_app_name_degrades envCatFail "com.a" st0).2 ⟨1, "", "no such file"⟩
    (by decide)).1 (by decide)

/-- C9: on every failure of `extract_quickapp` the local timestamped
staging directory `<identifier>_<timestamp>` is still present in the local
filesystem: no failure path removes or renames it. -/
theorem extract_fail_staging_remains (env : Env) (app : String) (s : St)
    (h : (extract_quickapp env app s).1 = false) :
    pathJoin outputDir (dirName app (env.clock s.tick)) ∈
      (extract_quickapp env app s).2.fs := by
  rw [extract_quickapp_fail_fs env app s h]
  exact mem_makedirs_fs _ _

/-- Witness for C9: under `envCopyFail` the failed extraction of `com.a`
leaves `extracted_quickapps/com.a_20240101_120000` on disk. -/
theorem extract_fail_staging_remains_witness :
    pathJoin outputDir (dirName "com.a" (envCopyFail.clock st0.tick)) ∈
      (extract_quickapp envCopyFail "com.a" st0).2.fs :=
  extract_fail_staging_remains envCopyFail "com.a" st0 (by decide)

/-- C4: when `extract_all` runs its loop (device check passed, non-empty
listing), the summary it logs reports exactly the number of items whose
`extract_quickapp` returned `true`, a number never exceeding the number of
listed items. -/
theorem extract_all_summary (env : Env) (s s1 s2 : St) (apps : List String)
    (h1 : check_adb_device env s = (true, s1))
    (h2 : list_quickapps env s1 = (apps, s2))
    (h3 : apps ≠ []) :
    (extract_all env s).logs =
      (extract_loop env apps (ensure_output_dir s2)).2.logs ++
        [LogEntry.extractDone
          ((extract_results env apps (ensure_output_dir s2)).1.count true)
          apps.length] ∧
    (extract_results env apps (ensure_output_dir s2)).1.count true ≤
      apps.length := by
  have hle : (extract_results env apps (ensure_output_dir s2)).1.count true ≤
      apps.length := by
    calc (extract_results env apps (ensure_output_dir s2)).1.count true
        ≤ (extract_results env apps (ensure_output_dir s2)).1.length :=
          List.count_le_length _ _
      _ = apps.length := extract_results_length env apps _
  refine ⟨?_, hle⟩
  unfold extract_all
  simp [h1, h2, h3, extract_loop_eq_results]

/-- Witness for C4: under `envTwoApps` (apps `a` and `b`, copy of `b`
failing) the reported count is the count of successful items and is at most
2. -/
theorem extract_all_summary_witness :
    (extract_all envTwoApps st0).logs =
      (extract_loop envTwoApps ["a", "b"] (ensure_output_dir stAfterList)).2.logs ++
        [LogEntry.extractDone
          ((extract_results envTwoApps ["a", "b"]
            (ensure_output_dir stAfterList)).1.count true)
          (["a", "b"] : List String).length] ∧
    (extract_results envTwoApps ["a", "b"]
      (ensure_output_dir stAfterList)).1.count true ≤
      (["a", "b"] : List String).length :=
  extract_all_summary envTwoApps st0 stAfterCheck stAfterList ["a", "b"]
    (by decide) (by decide) (by decide)

/-- C5 counterexample: the timestamp suffix alone does not make the
produced output directory names unique.  Under `envDup` (clock frozen
inside one second, every command succeeding with exit code 0, both
manifests naming `Weather`) the first extraction renames its staging
directory to `extracted_quickapps/Weather_20240101_120000`; the second
extraction produces that same renamed name, so `os.rename` refuses the
existing pull-filled destination, the caught `OSError` makes the call
return `false` even though every one of its external commands succeeded,
and the staging directory of `com.b` is left behind unrenamed — the run
never obtains a second, distinctly named output directory. -/
theorem extract_output_names_collide :
    (extract_quickapp envDup "com.a" st0).1 = true ∧
    pathJoin outputDir (dirName "Weather" "20240101_120000") ∈
      (extract_quickapp envDup "com.a" st0).2.fs ∧
    envDup.run (copyCmd "com.b") = ExecOutcome.ok ⟨0, "", ""⟩ ∧
    envDup.run (chmodCmd "com.b") = ExecOutcome.ok ⟨0, "", ""⟩ ∧
    envDup.run (pullCmd "com.b" "20240101_120000") = ExecOutcome.ok ⟨0, "", ""⟩ ∧
    envDup.run (rmTempCmd "com.b") = ExecOutcome.ok ⟨0, "", ""⟩ ∧
    (extract_quickapp envDup "com.b" (extract_quickapp envDup "com.a" st0).2).1 = false ∧
    (extract_quickapp envDup "com.b" (extract_quickapp envDup "com.a" st0).2).2.fs =
      [outputDir, pathJoin outputDir (dirName "Weather" "20240101_120000"),
       pathJoin outputDir (dirName "com.b" "20240101_120000")] := by decide

/-- C5 (amended): output directory names `<stem>_<timestamp>` are pairwise
distinct whenever their timestamp suffixes are distinct strings of the same
length (as the fixed-width `%Y%m%d_%H%M%S` format produces); within a
single clock second the suffix does not separate them. -/
theorem dirName_injective_on_timestamps (a b t1 t2 : String)
    (hlen : t1.length = t2.length) (hne : t1 ≠ t2) :
    dirName a t1 ≠ dirName b t2 := by
  intro e
  apply hne
  have h := congrArg String.data e
  simp only [dirName, String.data_append] at h
  have hl : t1.data.length = t2.data.length := hlen
  exact String.ext (List.append_inj' h hl).2

/-- Witness for the amended C5: names from two different same-length
timestamps differ. -/
theorem dirName_injective_on_timestamps_witness :
    dirName "com.a" "20240101_120000" ≠ dirName "com.b" "20240101_120001" :=
  dirName_injective_on_timestamps "com.a" "com.b" "20240101_120000"
    "20240101_120001" (by decide) (by decide)

/-- C6: `clear_cache` performs zero remote deletions whenever the
confirmation input does not lower-case to `y`; on a confirming input (the
device check having passed on a non-empty listing) it attempts exactly one
deletion per listed app, in order, and logs a tally of the deletions that
exited with code 0. -/
theorem clear_cache_confirmation (env : Env) (s : St) :
    (pylower env.confirmInput ≠ "y" →
      ∀ a, (clear_cache env s).trace.count (clearRmCmd a) =
        s.trace.count (clearRmCmd a)) ∧
    (pylower env.confirmInput = "y" →
      ∀ s1 s2 apps, check_adb_device env s = (true, s1) →
        list_quickapps env s1 = (apps, s2) → apps ≠ [] →
        (clear_cache env s).trace = s2.trace ++ apps.map clearRmCmd ∧
        (clear_cache env s).logs =
          (clear_loop env apps s2).2.logs ++
            [LogEntry.clearDone (apps.countP (fun a => clearOk env a))
              apps.length]) := by
  constructor
  · intro hny a
    unfold clear_cache
    rcases hcheck : check_adb_device env s with ⟨b, s1⟩
    have htr1 : s1.trace = s.trace ++ [devicesCmd] := by
      have := check_adb_device_trace env s
      rw [hcheck] at this
      exact this
    cases b with
    | false =>
      simp only [hcheck]
      rw [htr1]
      simp [List.count_append, List.count_cons, clearRm_ne_devices a,
        Ne.symm (clearRm_ne_devices a)]
    | true =>
      rcases hlist : list_quickapps env s1 with ⟨apps, s2⟩
      have htr2 : s2.trace = s1.trace ++ [lsCmd] := by
        have := list_quickapps_trace env s1
        rw [hlist] at this
        exact this
      by_cases happs : apps = []
      · simp [hcheck, hlist, happs, htr2, htr1, List.count_append,
          List.count_cons, clearRm_ne_devices a, Ne.symm (clearRm_ne_devices a),
          clearRm_ne_ls a, Ne.symm (clearRm_ne_ls a)]
      · simp [hcheck, hlist, happs, hny, htr2, htr1, List.count_append,
          List.count_cons, clearRm_ne_devices a, Ne.symm (clearRm_ne_devices a),
          clearRm_ne_ls a, Ne.symm (clearRm_ne_ls a)]
  · intro hy s1 s2 apps hcheck hlist hne
    unfold clear_cache
    have hyne : ¬ (pylower env.confirmInput ≠ "y") := by simp [hy]
    simp [hcheck, hlist, hne, hyne, clear_loop_trace, clear_loop_count]

/-- Witness for C6: under `envTwoApps` (confirmation input `n`) no deletion
of app `a` is issued. -/
theorem clear_cache_confirmation_witness :
    (clear_cache envTwoApps st0).trace.count (clearRmCmd "a") =
      st0.trace.count (clearRmCmd "a") :=
  (clear_cache_confirmation envTwoApps st0).1 (by decide) "a"

/-- C7: `check_adb_device` turns an invocation exception into a `false`
return, returns `false` (with an error log) when zero devices are parsed,
and returns `true` when at least one device is found, logging a warning
(and no error) exactly when more than one is present. -/
theorem check_adb_device_spec (env : Env) (s : St) :
    (env.run devicesCmd = ExecOutcome.exn →
      check_adb_device env s =
        (false, logE { s with trace := s.trace ++ [devicesCmd] })) ∧
    ∀ r, env.run devicesCmd = ExecOutcome.ok r →
      ((parseDevices r.stdout = [] →
        check_adb_device env s =
          (false, logE { s with trace := s.trace ++ [devicesCmd] })) ∧
       (parseDevices r.stdout ≠ [] →
        (check_adb_device env s).1 = true ∧
        (check_adb_device env s).2.logs =
          s.logs ++ (if 1 < (parseDevices r.stdout).length then
            [LogEntry.msg Level.warning, LogEntry.msg Level.info]
          else [LogEntry.msg Level.info]))) := by
  constructor
  · intro h
    unfold check_adb_device runCmd
    simp [h]
  · intro r hr
    constructor
    · intro hd
      unfold check_adb_device runCmd
      simp [hr, hd]
    · intro hd
      unfold check_adb_device runCmd
      by_cases hlen : 1 < (parseDevices r.stdout).length <;> simp [hr, hd, hlen]

/-- Witness for C7: under `envTwoDevices` (two parsed devices) the check
succeeds and logs a warning followed by the info line. -/
theorem check_adb_device_spec_witness :
    (check_adb_device envTwoDevices st0).1 = true ∧
    (check_adb_device envTwoDevices st0).2.logs =
      st0.logs ++
        (if 1 < (parseDevices
            "List of devices attached\nd1\tdevice\nd2\tdevice\n").length then
          [LogEntry.msg Level.warning, LogEntry.msg Level.info]
        else [LogEntry.msg Level.info]) :=
  ((check_adb_device_spec envTwoDevices st0).2
    ⟨0, "List of devices attached\nd1\tdevice\nd2\tdevice\n", ""⟩
    (by decide)).2 (by decide)

/-- C8: every string in the sequence returned by `list_quickapps` is
non-empty and already stripped of surrounding whitespace (blank lines of
the command output having been dropped). -/
theorem list_quickapps_items (env : Env) (s : St) (x : String)
    (hx : x ∈ (list_quickapps env s).1) : x ≠ "" ∧ pystrip x = x := by
  unfold list_quickapps runCmd at hx
  cases hr : env.run lsCmd with
  | exn =>
    rw [hr] at hx
    simp at hx
  | ok r =>
    rw [hr] at hx
    by_cases hrc : r.returncode = 0
    · simp [hrc] at hx
      obtain ⟨a, ⟨-, hne⟩, rfl⟩ := hx
      exact ⟨hne, pystrip_idem a⟩
    · simp [hrc] at hx

/-- Witness for C8: under `envPaddedLs` the listing output
&quot; a \n\nb\n&quot; yields the item `a`, non-empty and stripped. -/
theorem list_quickapps_items_witness :
    ("a" : String) ≠ "" ∧ pystrip "a" = "a" :=
  list_quickapps_items envPaddedLs st0 "a" (by decide)

/-- C10: `mainRun` on `extract <identifier>` is exactly one
`extract_quickapp` call, whose trace never contains the device check or the
remote enumeration; `extract_all` and `clear_cache` both start with the
device check, and `list_packages` never issues it. -/
theorem main_extract_direct (env : Env) (id : String) (s : St) :
    mainRun env ["extract", id] s = (extract_quickapp env id s).2 ∧
    (∀ c ∈ (extract_quickapp env id s).2.trace,
      c ∈ s.trace ∨ (c ≠ devicesCmd ∧ c ≠ lsCmd)) ∧
    (∃ t, (extract_all env s).trace = s.trace ++ devicesCmd :: t) ∧
    (∃ t, (clear_cache env s).trace = s.trace ++ devicesCmd :: t) ∧
    (∀ c ∈ (list_packages env s).trace, c ∈ s.trace ∨ c ≠ devicesCmd) := by
  refine ⟨by simp [mainRun], ?_, ?_, ?_, ?_⟩
  · intro c hc
    rcases extract_quickapp_trace_shape env id s with ⟨t, ht, hmem⟩
    rw [ht] at hc
    rcases List.mem_append.1 hc with hin | hin
    · exact Or.inl hin
    · refine Or.inr ?_
      rcases hmem c hin with rfl | rfl | rfl | rfl | rfl | rfl
      · exact ⟨mkdir_ne_devices, mkdir_ne_ls⟩
      · exact ⟨copy_ne_devices id, copy_ne_ls id⟩
      · exact ⟨chmod_ne_devices id, chmod_ne_ls id⟩
      · exact ⟨pull_ne_devices id (env.clock s.tick), pull_ne_ls id (env.clock s.tick)⟩
      · exact ⟨rm_ne_devices id, rm_ne_ls id⟩
      · exact ⟨cat_ne_devices id, cat_ne_ls id⟩
  · unfold extract_all
    rcases hcheck : check_adb_device env s with ⟨b, s1⟩
    have htr1 : s1.trace = s.trace ++ [devicesCmd] := by
      have := check_adb_device_trace env s
      rw [hcheck] at this
      exact this
    cases b with
    | false => exact ⟨[], by simp [hcheck, htr1]⟩
    | true =>
      rcases hlist : list_quickapps env s1 with ⟨apps, s2⟩
      have htr2 : s2.trace = s1.trace ++ [lsCmd] := by
        have := list_quickapps_trace env s1
        rw [hlist] at this
        exact this
      by_cases happs : apps = []
      · exact ⟨[lsCmd], by simp [hcheck, hlist, happs, htr2, htr1]⟩
      · rcases extract_loop_trace_mono env apps (ensure_output_dir s2) with ⟨t3, ht3⟩
        refine ⟨[lsCmd] ++ t3, ?_⟩
        simp [hcheck, hlist, happs, ht3, htr2, htr1]
  · unfold clear_cache
    rcases hcheck : check_adb_device env s with ⟨b, s1⟩
    have htr1 : s1.trace = s.trace ++ [devicesCmd] := by
      have := check_adb_device_trace env s
      rw [hcheck] at this
      exact this
    cases b with
    | false => exact ⟨[], by simp [hcheck, htr1]⟩
    | true =>
      rcases hlist : list_quickapps env s1 with ⟨apps, s2⟩
      have htr2 : s2.trace = s1.trace ++ [lsCmd] := by
        have := list_quickapps_trace env s1
        rw [hlist] at this
        exact this
      by_cases happs : apps = []
      · exact ⟨[lsCmd], by simp [hcheck, hlist, happs, htr2, htr1]⟩
      · by_cases hy : pylower env.confirmInput ≠ "y"
        · exact ⟨[lsCmd], by simp [hcheck, hlist, happs, hy, htr2, htr1]⟩
        · refine ⟨[lsCmd] ++ apps.map clearRmCmd, ?_⟩
          simp [hcheck, hlist, happs, hy, clear_loop_trace, htr2, htr1]
  · intro c hc
    unfold list_packages at hc
    rcases hlist : list_quickapps env s with ⟨apps, s1⟩
    have htr1 : s1.trace = s.trace ++ [lsCmd] := by
      have := list_quickapps_trace env s
      rw [hlist] at this
      exact this
    rw [hlist] at hc
    by_cases happs : apps = []
    · simp only [happs, if_true] at hc
      rw [htr1] at hc
      rcases List.mem_append.1 hc with hin | hin
      · exact Or.inl hin
      · simp at hin
        subst hin
        exact Or.inr (by decide)
    · simp only [if_neg happs] at hc
      rw [packages_loop_trace, htr1] at hc
      rcases List.mem_append.1 hc with hin | hin
      · rcases List.mem_append.1 hin with hin2 | hin2
        · exact Or.inl hin2
        · simp at hin2
          subst hin2
          exact Or.inr (by decide)
      · rcases List.mem_map.1 hin with ⟨a, -, rfl⟩
        exact Or.inr (cat_ne_devices a)

/-- Witness for C10: under `envTwoApps`, `extract a` equals the direct
extraction, and the staging mkdir issued by it is neither the device check
nor the enumeration. -/
theorem main_extract_direct_witness :
    mainRun envTwoApps ["extract", "a"] st0 = (extract_quickapp envTwoApps "a" st0).2 ∧
    (mkdirTempCmd ∈ st0.trace ∨ (mkdirTempCmd ≠ devicesCmd ∧ mkdirTempCmd ≠ lsCmd)) :=
  ⟨(main_extract_direct envTwoApps "a" st0).1,
   (main_extract_direct envTwoApps "a" st0).2.1 mkdirTempCmd (by decide)⟩
